import Mathlib

/-!
Shallow embedding of `obj_to_usdz.py` (OBJ-variant → USDZ converter):
the mesh parser `parse_obj_with_colors`, the packager `create_usdz`, and
the driver `main`, together with proofs about them.

Modelling conventions:
* Python `float` / `int` values are represented as `ℚ` / `ℤ`; the literal
  parsers below mirror CPython's acceptance of plain decimal literals
  (optional sign, digits, decimal point, exponent).  Non-finite literals
  (`inf`, `nan`) and underscore digit separators are outside the model.
* A raised `ValueError` aborting the script is modelled as `Except.error ()`.
* File-system and archive effects of `create_usdz` are modelled by a record
  of the externally observable outcome; whether the `zipfile` operations
  inside the `try` block succeed is an external parameter `zipOk`.
* Diagnostic `print` calls and the `vertex_count` debug counter have no
  effect on the produced data and are omitted.
-/

/-- Numeric value of an all-digit character list (`0` for the empty list). -/
def natVal (l : List Char) : ℕ :=
  l.foldl (fun a c => 10 * a + (c.toNat - ('0').toNat)) 0

/-- Value of a digit string; `none` unless the list is nonempty and every
character is a decimal digit (the digit-run part of CPython's numeric
literal grammar). -/
def digitsVal? (l : List Char) : Option ℕ :=
  if l = [] then none
  else if l.all Char.isDigit then some (natVal l)
  else none

/-- CPython `int(s)` on a plain decimal token: optional sign followed by a
nonempty digit run. -/
def pyInt? (s : String) : Option ℤ :=
  match s.data with
  | '-' :: r => (digitsVal? r).map (fun n => -(n : ℤ))
  | '+' :: r => (digitsVal? r).map (fun n => (n : ℤ))
  | r => (digitsVal? r).map (fun n => (n : ℤ))

/-- Mantissa of a float literal: digits with an optional single decimal
point; at least one digit overall. -/
def mantissa? (l : List Char) : Option ℚ :=
  match l.span (fun c => c != '.') with
  | (ip, []) => (digitsVal? ip).map (fun n => (n : ℚ))
  | (ip, _ :: fp) =>
    if fp.contains '.' then none
    else if ip = [] ∧ fp = [] then none
    else if ip.all Char.isDigit ∧ fp.all Char.isDigit then
      some ((natVal ip : ℚ) + (natVal fp : ℚ) / (10 : ℚ) ^ fp.length)
    else none

/-- Exponent of a float literal: optional sign followed by a digit run. -/
def expVal? (l : List Char) : Option ℤ :=
  match l with
  | '-' :: r => (digitsVal? r).map (fun n => -(n : ℤ))
  | '+' :: r => (digitsVal? r).map (fun n => (n : ℤ))
  | r => (digitsVal? r).map (fun n => (n : ℤ))

/-- CPython `float(s)` on a finite decimal token:
`[sign] mantissa [('e'|'E') [sign] digits]`. -/
def pyFloat? (s : String) : Option ℚ :=
  let p : ℚ × List Char :=
    match s.data with
    | '-' :: r => (-1, r)
    | '+' :: r => (1, r)
    | r => (1, r)
  match p.2.span (fun c => c != 'e' && c != 'E') with
  | (m, []) => (mantissa? m).map (fun v => p.1 * v)
  | (m, _ :: e) =>
    match mantissa? m, expVal? e with
    | some mv, some ev => some (p.1 * mv * (10 : ℚ) ^ ev)
    | _, _ => none

/-- Python `str.strip()` restricted to ASCII whitespace. -/
def pyStrip (s : String) : String :=
  ⟨((s.data.dropWhile Char.isWhitespace).reverse.dropWhile Char.isWhitespace).reverse⟩

/-- Python `str.split()` with no separator: split on whitespace runs,
dropping empty fields. -/
def pySplit (s : String) : List String :=
  ((s.data.splitOnP Char.isWhitespace).filter (fun l => !l.isEmpty)).map
    (fun l => ⟨l⟩)

/-- The in-memory mesh produced by `parse_obj_with_colors`: the `vertices`,
`colors` and `faces` lists of the source. -/
structure ObjData where
  vertices : List (ℚ × ℚ × ℚ)
  colors : List (ℚ × ℚ × ℚ)
  faces : List (List ℤ)
deriving DecidableEq

deriving instance DecidableEq for Except

/-- First slash-separated component of a face field, parsed as an integer
and converted from 1-based to 0-based: `int(vertex_data.split('/')[0]) - 1`
(lines 76–80 of the source). -/
def refOf? (s : String) : Option ℤ :=
  (pyInt? ⟨s.data.takeWhile (fun c => c != '/')⟩).map (fun n => n - 1)

/-- The loop over `parts[1:]` building `face_indices`; the first failing
`int(...)` raises, aborting with `none`. -/
def parseFaceRefs : List String → Option (List ℤ)
  | [] => some []
  | t :: ts =>
    match refOf? t, parseFaceRefs ts with
    | some n, some r => some (n :: r)
    | _, _ => none

/-- Triangulation of one face record (lines 82–88 of the source): a
3-reference face is emitted as-is; a longer face is fan-triangulated
`for i in range(1, len(face_indices) - 1)`; shorter records emit nothing. -/
def emitFaces (refs : List ℤ) : List (List ℤ) :=
  if refs.length = 3 then [refs]
  else if 3 < refs.length then
    (List.range' 1 (refs.length - 2)).map
      (fun i => [refs.getD 0 0, refs.getD i 0, refs.getD (i + 1) 0])
  else []

/-- Sequential `float` parsing of three fields, failing at the first bad
field, as the tuple assignments on lines 57–58 / 67 do. -/
def floats3? (a b c : String) : Option (ℚ × ℚ × ℚ) :=
  match pyFloat? a with
  | none => none
  | some x =>
    match pyFloat? b with
    | none => none
    | some y =>
      match pyFloat? c with
      | none => none
      | some z => some (x, y, z)

/-- The `parts[0] == 'v'` branch (lines 54–71): with ≥ 7 fields, fields
2–4 are position and 5–7 color; with 4–6 fields, position only and white
color; with < 4 fields nothing happens.  A failing `float(...)` raises. -/
def processVertex (st : ObjData) (parts : List String) : Except Unit ObjData :=
  if 7 ≤ parts.length then
    match floats3? (parts.getD 1 "") (parts.getD 2 "") (parts.getD 3 "") with
    | none => .error ()
    | some (x, y, z) =>
      match floats3? (parts.getD 4 "") (parts.getD 5 "") (parts.getD 6 "") with
      | none => .error ()
      | some (r, g, b) =>
        .ok { st with vertices := st.vertices ++ [(x, y, z)],
                      colors := st.colors ++ [(r, g, b)] }
  else if 4 ≤ parts.length then
    match floats3? (parts.getD 1 "") (parts.getD 2 "") (parts.getD 3 "") with
    | none => .error ()
    | some (x, y, z) =>
      .ok { st with vertices := st.vertices ++ [(x, y, z)],
                    colors := st.colors ++ [(1, 1, 1)] }
  else .ok st

/-- The `parts[0] == 'f'` branch (lines 74–88): parse every reference
(raising on the first bad one), then append the triangulated faces. -/
def processFace (st : ObjData) (refTokens : List String) : Except Unit ObjData :=
  match parseFaceRefs refTokens with
  | some refs => .ok { st with faces := st.faces ++ emitFaces refs }
  | none => .error ()

/-- Dispatch on the first token of a split line (lines 54, 74); any other
directive is ignored. -/
def processParts (st : ObjData) (parts : List String) : Except Unit ObjData :=
  match parts with
  | [] => .ok st
  | t :: rest =>
    if t = "v" then processVertex st (t :: rest)
    else if t = "f" then processFace st rest
    else .ok st

/-- One iteration of the line loop (lines 42–51): strip, skip empty and
`#`-comment lines, split into fields, skip if no fields, else dispatch. -/
def processLine (st : ObjData) (line : String) : Except Unit ObjData :=
  let l := pyStrip line
  if l.data = [] then .ok st
  else if l.data.head? = some '#' then .ok st
  else
    match pySplit l with
    | [] => .ok st
    | t :: rest => processParts st (t :: rest)

/-- The line loop threading the accumulated lists; an uncaught exception
from any line aborts the whole parse. -/
def parseLines : ObjData → List String → Except Unit ObjData
  | st, [] => .ok st
  | st, l :: ls =>
    match processLine st l with
    | .error e => .error e
    | .ok st' => parseLines st' ls

/-- `parse_obj_with_colors` (lines 26–90), on the stripped lines of the
input file. -/
def parse_obj_with_colors (lines : List String) : Except Unit ObjData :=
  parseLines ⟨[], [], []⟩ lines

/-- The scene-description document built by `create_usdz` (lines 116–138):
the pure attribute arrays set on the mesh prim. -/
structure UsdDoc where
  points : List (ℚ × ℚ × ℚ)
  faceVertexCounts : List ℕ
  faceVertexIndices : List ℤ
  displayColor : List (ℚ × ℚ × ℚ)
  displayOpacity : List ℚ
deriving DecidableEq

/-- Document construction from the mesh lists (lines 116–138 of the
source): points from `vertices`, one `len(face)` entry per face, the
flattened index list, per-vertex colors, and all-ones opacity. -/
def buildDocument (vertices colors : List (ℚ × ℚ × ℚ))
    (faces : List (List ℤ)) : UsdDoc :=
  { points := vertices
    faceVertexCounts := faces.map List.length
    faceVertexIndices := faces.flatten
    displayColor := colors
    displayOpacity := List.replicate colors.length 1 }

/-- Python `str.endswith(suffix)`. -/
def pyEndsWith (s suf : String) : Bool :=
  decide (s.data.drop (s.data.length - suf.data.length) = suf.data)

/-- Fuelled left-to-right scan of Python `str.replace(old, new)`: at each
position, replace a (nonempty) match of `old` and continue after it, else
keep the character.  The fuel is at least the list length at every call. -/
def replaceAllAux (old new : List Char) : ℕ → List Char → List Char
  | _, [] => []
  | 0, l => l
  | fuel + 1, c :: rest =>
    if old.isPrefixOf (c :: rest) && !old.isEmpty then
      new ++ replaceAllAux old new fuel ((c :: rest).drop old.length)
    else c :: replaceAllAux old new fuel rest

/-- Python `s.replace(old, new)` for nonempty `old`. -/
def pyReplace (s old new : String) : String :=
  ⟨replaceAllAux old.data new.data s.data.length s.data⟩

/-- Intermediate file path chosen by `create_usdz` (lines 97–102):
`output_path.replace('.usdz', '.usdc')` when the output ends in `.usdz`,
else the output path itself. -/
def intermediatePath (output_path : String) : String :=
  if pyEndsWith output_path ".usdz" then pyReplace output_path ".usdz" ".usdc"
  else output_path

/-- `os.path.basename`: the part of the path after the last `/`. -/
def basename (p : String) : String :=
  ⟨(p.data.reverse.takeWhile (fun c => c != '/')).reverse⟩

/-- One entry of the produced archive; `stored = true` means the entry is
written with `ZIP_STORED` (no compression). -/
structure ZipEntry where
  name : String
  stored : Bool
deriving DecidableEq

/-- Externally observable outcome of one `create_usdz` call: the document
that was serialized, the intermediate path, the archive contents if an
archive was successfully written, whether the intermediate file was
removed, and whether an exception escaped the function. -/
structure PackageOutcome where
  doc : UsdDoc
  intermediate : String
  archive : Option (List ZipEntry)
  intermediateRemoved : Bool
  raised : Bool
deriving DecidableEq

/-- `create_usdz` (lines 93–163).  `zipOk` says whether the `zipfile`
operations inside the `try` block succeed.  On success the single stored
entry is the basename of the intermediate file and the intermediate is
removed (lines 150–159); on failure the `except` block prints a warning
and returns normally, leaving the intermediate in place (lines 161–163);
without a `.usdz` extension no archiving happens at all. -/
def create_usdz (vertices colors : List (ℚ × ℚ × ℚ)) (faces : List (List ℤ))
    (output_path : String) (zipOk : Bool) : PackageOutcome :=
  let ip := intermediatePath output_path
  let doc := buildDocument vertices colors faces
  if pyEndsWith output_path ".usdz" then
    if zipOk then
      { doc := doc, intermediate := ip,
        archive := some [⟨basename ip, true⟩],
        intermediateRemoved := true, raised := false }
    else
      { doc := doc, intermediate := ip, archive := none,
        intermediateRemoved := false, raised := false }
  else
    { doc := doc, intermediate := ip, archive := none,
      intermediateRemoved := false, raised := false }

/-- Result of one run of `main` (lines 166–193) after the input file has
been read: the parse raised and killed the script, or the zero-vertex
check exited with status 1 before any packaging, or `create_usdz` ran. -/
inductive MainResult where
  | parseAborted : MainResult
  | noVertices : MainResult
  | completed : PackageOutcome → MainResult
deriving DecidableEq

/-- `main` after reading the input file (lines 179–193): parse, exit with
status 1 when no vertices were found, else package. -/
def mainRun (lines : List String) (output_path : String) (zipOk : Bool) :
    MainResult :=
  match parse_obj_with_colors lines with
  | .error _ => .parseAborted
  | .ok d =>
    if d.vertices.length = 0 then .noVertices
    else .completed (create_usdz d.vertices d.colors d.faces output_path zipOk)

/-- Process exit status of a `MainResult`: an uncaught exception or the
explicit `sys.exit(1)` give status 1; a completed run falls off the end of
`main` with status 0. -/
def exitCode : MainResult → ℕ
  | .parseAborted => 1
  | .noVertices => 1
  | .completed _ => 0

/-- Whether the run wrote any output file: only a completed run reaches
`create_usdz`, which always writes at least the intermediate document. -/
def outputCreated : MainResult → Bool
  | .completed _ => true
  | _ => false

/-- Modelled from the spec: the intermediate path with "same directory and
stem, only the final extension replaced by the document's own extension
`.usdc`" (for an output path ending in `.usdz`). -/
def specIntermediate (p : String) : String :=
  ⟨p.data.take (p.data.length - 5) ++ (".usdc").data⟩

/-- Modelled from the spec: the fan triangulation "(ref[0], ref[i],
ref[i+1]) for successive i" of a face record, `n - 2` triangles for an
`n`-reference face. -/
def specFan (refs : List ℤ) : List (List ℤ) :=
  (List.range (refs.length - 2)).map
    (fun j => [refs.getD 0 0, refs.getD (j + 1) 0, refs.getD (j + 2) 0])

/-- Modelled from the spec: "the sum of n-2 over all input faces with
n >= 3 references". -/
def specTriangleTotal (ns : List ℕ) : ℕ :=
  (ns.map (fun n => if 3 ≤ n then n - 2 else 0)).sum

/-- Number of vertex references of a line, when the line reaches the face
branch of the parser (same guards as `processLine`); `none` otherwise. -/
def lineRefCount? (line : String) : Option ℕ :=
  let l := pyStrip line
  if l.data = [] then none
  else if l.data.head? = some '#' then none
  else
    match pySplit l with
    | [] => none
    | t :: rest => if t = "f" then some rest.length else none

/-- Reference counts of all face records of an input, in order. -/
def faceRefCounts (lines : List String) : List ℕ :=
  lines.filterMap lineRefCount?

/-! ### Shape lemmas for the parser -/

section ProofSection

attribute [local semireducible] Rat.mul Rat.inv Rat.add Rat.sub Rat.ofScientific

lemma processVertex_shape {st st' : ObjData} {parts : List String}
    (h : processVertex st parts = .ok st') :
    st'.faces = st.faces ∧
    (st' = st ∨ ∃ p c, st'.vertices = st.vertices ++ [p] ∧
      st'.colors = st.colors ++ [c]) := by
  unfold processVertex at h
  split at h
  · split at h
    · cases h
    · split at h
      · cases h
      · cases h
        exact ⟨rfl, Or.inr ⟨_, _, rfl, rfl⟩⟩
  · split at h
    · split at h
      · cases h
      · cases h
        exact ⟨rfl, Or.inr ⟨_, _, rfl, rfl⟩⟩
    · cases h
      exact ⟨rfl, Or.inl rfl⟩

lemma processFace_shape {st st' : ObjData} {refTokens : List String}
    (h : processFace st refTokens = .ok st') :
    st'.vertices = st.vertices ∧ st'.colors = st.colors ∧
    ∃ refs, parseFaceRefs refTokens = some refs ∧
      st'.faces = st.faces ++ emitFaces refs := by
  unfold processFace at h
  split at h
  · cases h
    exact ⟨rfl, rfl, _, by assumption, rfl⟩
  · cases h

lemma processParts_shape {st st' : ObjData} {parts : List String}
    (h : processParts st parts = .ok st') :
    (st'.faces = st.faces ∧
      (st' = st ∨ ∃ p c, st'.vertices = st.vertices ++ [p] ∧
        st'.colors = st.colors ++ [c])) ∨
    (st'.vertices = st.vertices ∧ st'.colors = st.colors) := by
  unfold processParts at h
  split at h
  · cases h; exact Or.inr ⟨rfl, rfl⟩
  · split at h
    · exact Or.inl (processVertex_shape h)
    · split at h
      · exact Or.inr ⟨(processFace_shape h).1, (processFace_shape h).2.1⟩
      · cases h; exact Or.inr ⟨rfl, rfl⟩

lemma processLine_shape {st st' : ObjData} {line : String}
    (h : processLine st line = .ok st') :
    (st'.faces = st.faces ∧
      (st' = st ∨ ∃ p c, st'.vertices = st.vertices ++ [p] ∧
        st'.colors = st.colors ++ [c])) ∨
    (st'.vertices = st.vertices ∧ st'.colors = st.colors) := by
  simp only [processLine] at h
  split at h
  · cases h; exact Or.inr ⟨rfl, rfl⟩
  · split at h
    · cases h; exact Or.inr ⟨rfl, rfl⟩
    · split at h
      · cases h; exact Or.inr ⟨rfl, rfl⟩
      · exact processParts_shape h

lemma processLine_vc {st st' : ObjData} {line : String}
    (h : processLine st line = .ok st')
    (hvc : st.vertices.length = st.colors.length) :
    st'.vertices.length = st'.colors.length := by
  rcases processLine_shape h with ⟨-, hc | ⟨p, c, hv, hc⟩⟩ | ⟨hv, hc⟩
  · rw [hc]; exact hvc
  · simp [hv, hc, hvc]
  · rw [hv, hc]; exact hvc

lemma parseLines_vc : ∀ (lines : List String) (st d : ObjData),
    parseLines st lines = .ok d →
    st.vertices.length = st.colors.length →
    d.vertices.length = d.colors.length := by
  intro lines
  induction lines with
  | nil =>
    intro st d h hvc
    cases h
    exact hvc
  | cons l ls ih =>
    intro st d h hvc
    unfold parseLines at h
    cases hpl : processLine st l with
    | error e => rw [hpl] at h; cases h
    | ok st1 =>
      rw [hpl] at h
      exact ih st1 d h (processLine_vc hpl hvc)

/-- C10: every branch of the parser that appends a vertex also appends a
color, so the vertex and color lists of any successfully parsed mesh have
the same length and the warning branch of `main` (color/vertex count
mismatch) is unreachable for meshes produced by this parser. -/
theorem c10_vertex_color_lengths (lines : List String) (d : ObjData)
    (h : parse_obj_with_colors lines = .ok d) :
    d.vertices.length = d.colors.length :=
  parseLines_vc lines ⟨[], [], []⟩ d h rfl

/-- Witness for `c10_vertex_color_lengths` at a concrete input. -/
theorem c10_vertex_color_lengths_witness :
    parse_obj_with_colors ["v 1 2 3 0.5 0.5 0.5", "v 4 5 6"] =
      .ok ⟨[(1, 2, 3), (4, 5, 6)], [(1/2, 1/2, 1/2), (1, 1, 1)], []⟩ ∧
    (⟨[(1, 2, 3), (4, 5, 6)], [(1/2, 1/2, 1/2), (1, 1, 1)], []⟩ :
      ObjData).vertices.length =
    (⟨[(1, 2, 3), (4, 5, 6)], [(1/2, 1/2, 1/2), (1, 1, 1)], []⟩ :
      ObjData).colors.length :=
  ⟨by decide,
   c10_vertex_color_lengths ["v 1 2 3 0.5 0.5 0.5", "v 4 5 6"]
     ⟨[(1, 2, 3), (4, 5, 6)], [(1/2, 1/2, 1/2), (1, 1, 1)], []⟩ (by decide)⟩

/-- C5: when the parse succeeds but finds zero parsable vertex records,
`main` takes the `len(vertices) == 0` branch: it exits with status 1
before `create_usdz` is ever called, so no output file is created. -/
theorem c5_no_vertices_fails (lines : List String) (d : ObjData)
    (out : String) (zipOk : Bool)
    (hp : parse_obj_with_colors lines = .ok d) (hv : d.vertices = []) :
    mainRun lines out zipOk = .noVertices ∧
    exitCode (mainRun lines out zipOk) = 1 ∧
    outputCreated (mainRun lines out zipOk) = false := by
  have h1 : mainRun lines out zipOk = .noVertices := by
    unfold mainRun
    rw [hp]
    simp [hv]
  refine ⟨h1, ?_, ?_⟩ <;> rw [h1] <;> rfl

/-- Witness for `c5_no_vertices_fails`: an input with no `v` record. -/
theorem c5_no_vertices_fails_witness :
    mainRun ["# empty scene", "vn 0 0 1"] "out.usdz" true = .noVertices ∧
    exitCode (mainRun ["# empty scene", "vn 0 0 1"] "out.usdz" true) = 1 ∧
    outputCreated (mainRun ["# empty scene", "vn 0 0 1"] "out.usdz" true) =
      false :=
  c5_no_vertices_fails _ ⟨[], [], []⟩ _ _ (by decide) rfl

/-- C6: for a mesh of `k` vertices and `m` triangle faces, the document
has exactly `k` points, `m` face-vertex-count entries all equal to 3, and
`3 * m` flattened face-vertex indices (each face's indices in order). -/
theorem c6_document_shape (v c : List (ℚ × ℚ × ℚ)) (f : List (List ℤ))
    (h : ∀ x ∈ f, x.length = 3) :
    (buildDocument v c f).points.length = v.length ∧
    (buildDocument v c f).faceVertexCounts.length = f.length ∧
    (∀ n ∈ (buildDocument v c f).faceVertexCounts, n = 3) ∧
    (buildDocument v c f).faceVertexIndices.length = 3 * f.length ∧
    (buildDocument v c f).faceVertexIndices = f.flatten := by
  refine ⟨rfl, by simp [buildDocument], ?_, ?_, rfl⟩
  · intro n hn
    simp only [buildDocument, List.mem_map] at hn
    obtain ⟨x, hx, rfl⟩ := hn
    exact h x hx
  · show f.flatten.length = 3 * f.length
    rw [List.length_flatten]
    induction f with
    | nil => simp
    | cons a t ih =>
      have ht : ∀ x ∈ t, x.length = 3 := fun x hx => h x (List.mem_cons_of_mem a hx)
      have ha : a.length = 3 := h a (List.mem_cons_self a t)
      simp only [List.map_cons, List.sum_cons, ih ht, ha, List.length_cons]
      ring

/-- Witness for `c6_document_shape` at a concrete mesh. -/
theorem c6_document_shape_witness :
    (buildDocument [(0, 0, 0), (1, 0, 0), (0, 1, 0)] [(1, 1, 1), (1, 1, 1), (1, 1, 1)]
      [[0, 1, 2]]).points.length = [((0:ℚ), (0:ℚ), (0:ℚ)), (1, 0, 0), (0, 1, 0)].length ∧
    (buildDocument [(0, 0, 0), (1, 0, 0), (0, 1, 0)] [(1, 1, 1), (1, 1, 1), (1, 1, 1)]
      [[0, 1, 2]]).faceVertexCounts.length = [[(0:ℤ), 1, 2]].length ∧
    (∀ n ∈ (buildDocument [(0, 0, 0), (1, 0, 0), (0, 1, 0)] [(1, 1, 1), (1, 1, 1), (1, 1, 1)]
      [[0, 1, 2]]).faceVertexCounts, n = 3) ∧
    (buildDocument [(0, 0, 0), (1, 0, 0), (0, 1, 0)] [(1, 1, 1), (1, 1, 1), (1, 1, 1)]
      [[0, 1, 2]]).faceVertexIndices.length = 3 * [[(0:ℤ), 1, 2]].length ∧
    (buildDocument [(0, 0, 0), (1, 0, 0), (0, 1, 0)] [(1, 1, 1), (1, 1, 1), (1, 1, 1)]
      [[0, 1, 2]]).faceVertexIndices = [[(0:ℤ), 1, 2]].flatten :=
  c6_document_shape _ _ _ (by decide)

/-- C7: a `v` record with at least 7 whitespace-separated fields produces
the color read verbatim from fields 5–7 (no clamping or scaling); a `v`
record with at least 4 but fewer than 7 fields produces exactly the
default color (1,1,1). -/
theorem c7_vertex_colors :
    (∀ (st : ObjData) (parts : List String) (x y z r g b : ℚ),
      7 ≤ parts.length →
      pyFloat? (parts.getD 1 "") = some x →
      pyFloat? (parts.getD 2 "") = some y →
      pyFloat? (parts.getD 3 "") = some z →
      pyFloat? (parts.getD 4 "") = some r →
      pyFloat? (parts.getD 5 "") = some g →
      pyFloat? (parts.getD 6 "") = some b →
      processVertex st parts =
        .ok { st with vertices := st.vertices ++ [(x, y, z)],
                      colors := st.colors ++ [(r, g, b)] }) ∧
    (∀ (st : ObjData) (parts : List String) (x y z : ℚ),
      4 ≤ parts.length → parts.length < 7 →
      pyFloat? (parts.getD 1 "") = some x →
      pyFloat? (parts.getD 2 "") = some y →
      pyFloat? (parts.getD 3 "") = some z →
      processVertex st parts =
        .ok { st with vertices := st.vertices ++ [(x, y, z)],
                      colors := st.colors ++ [(1, 1, 1)] }) := by
  constructor
  · intro st parts x y z r g b h7 h1 h2 h3 h4 h5 h6
    simp only [List.getD_eq_getElem?_getD] at h1 h2 h3 h4 h5 h6
    simp [processVertex, floats3?, h7, h1, h2, h3, h4, h5, h6]
  · intro st parts x y z h4 h7 h1 h2 h3
    simp only [List.getD_eq_getElem?_getD] at h1 h2 h3
    simp [processVertex, floats3?, Nat.not_le.mpr h7, h4, h1, h2, h3]

/-- Witness for `c7_vertex_colors` at concrete vertex records. -/
theorem c7_vertex_colors_witness :
    processVertex ⟨[], [], []⟩ ["v", "1", "2", "3", "0.25", "0.5", "0.75"] =
      .ok ⟨[(1, 2, 3)], [(0.25, 0.5, 0.75)], []⟩ ∧
    processVertex ⟨[], [], []⟩ ["v", "1", "2", "3"] =
      .ok ⟨[(1, 2, 3)], [(1, 1, 1)], []⟩ :=
  ⟨c7_vertex_colors.1 ⟨[], [], []⟩ ["v", "1", "2", "3", "0.25", "0.5", "0.75"]
      1 2 3 0.25 0.5 0.75 (by decide) (by decide) (by decide) (by decide)
      (by decide) (by decide) (by decide),
   c7_vertex_colors.2 ⟨[], [], []⟩ ["v", "1", "2", "3"]
      1 2 3 (by decide) (by decide) (by decide) (by decide) (by decide)⟩

lemma no_slash_takeWhile (l : List Char) :
    '/' ∉ l.takeWhile (fun c => c != '/') := by
  induction l with
  | nil => simp
  | cons c t ih =>
    rw [List.takeWhile_cons]
    by_cases hc : c = '/'
    · simp [hc]
    · have hc' : ('/' : Char) ≠ c := fun h => hc h.symm
      simp [hc, hc', ih]

lemma basename_no_slash (p : String) : '/' ∉ (basename p).data := by
  show '/' ∉ (p.data.reverse.takeWhile (fun c => c != '/')).reverse
  rw [List.mem_reverse]
  exact no_slash_takeWhile _

/-- C8: when the output path ends in `.usdz` and the archive write
succeeds, the produced container has exactly one entry, stored without
compression, named by the intermediate document's base filename (which
contains no directory separator), and the intermediate file is removed,
so document and archive are never both left behind. -/
theorem c8_archive_layout (v c : List (ℚ × ℚ × ℚ)) (f : List (List ℤ))
    (out : String) (h : pyEndsWith out ".usdz" = true) :
    (create_usdz v c f out true).archive =
      some [⟨basename (intermediatePath out), true⟩] ∧
    (∀ es, (create_usdz v c f out true).archive = some es →
      es.length = 1 ∧ ∀ e ∈ es, e.stored = true) ∧
    '/' ∉ (basename (intermediatePath out)).data ∧
    (create_usdz v c f out true).intermediateRemoved = true ∧
    (create_usdz v c f out true).raised = false := by
  refine ⟨?_, ?_, basename_no_slash _, ?_, ?_⟩ <;>
    simp [create_usdz, h]

/-- Witness for `c8_archive_layout` at a concrete conversion. -/
theorem c8_archive_layout_witness :
    (create_usdz [((0:ℚ), (0:ℚ), (0:ℚ))] [((1:ℚ), (1:ℚ), (1:ℚ))] []
      "model.usdz" true).archive =
      some [⟨basename (intermediatePath "model.usdz"), true⟩] ∧
    (∀ es, (create_usdz [((0:ℚ), (0:ℚ), (0:ℚ))] [((1:ℚ), (1:ℚ), (1:ℚ))] []
      "model.usdz" true).archive = some es →
      es.length = 1 ∧ ∀ e ∈ es, e.stored = true) ∧
    '/' ∉ (basename (intermediatePath "model.usdz")).data ∧
    (create_usdz [((0:ℚ), (0:ℚ), (0:ℚ))] [((1:ℚ), (1:ℚ), (1:ℚ))] []
      "model.usdz" true).intermediateRemoved = true ∧
    (create_usdz [((0:ℚ), (0:ℚ), (0:ℚ))] [((1:ℚ), (1:ℚ), (1:ℚ))] []
      "model.usdz" true).raised = false :=
  c8_archive_layout _ _ _ "model.usdz" (by decide)

/-! ### Fan triangulation: per-face shape and global count law -/

lemma parseFaceRefs_length : ∀ {ts : List String} {r : List ℤ},
    parseFaceRefs ts = some r → r.length = ts.length := by
  intro ts
  induction ts with
  | nil => intro r h; cases h; rfl
  | cons t ts ih =>
    intro r h
    unfold parseFaceRefs at h
    cases h1 : refOf? t with
    | none => rw [h1] at h; cases h
    | some n =>
      rw [h1] at h
      cases h2 : parseFaceRefs ts with
      | none => rw [h2] at h; cases h
      | some r2 =>
        rw [h2] at h
        cases h
        simp [ih h2]

lemma emitFaces_length (refs : List ℤ) :
    (emitFaces refs).length = if 3 ≤ refs.length then refs.length - 2 else 0 := by
  unfold emitFaces
  by_cases h3 : refs.length = 3
  · rw [if_pos h3, if_pos (by omega)]
    simp [h3]
  · by_cases h4 : 3 < refs.length
    · rw [if_neg h3, if_pos h4, if_pos (by omega)]
      simp
    · rw [if_neg h3, if_neg h4, if_neg (by omega)]
      rfl

lemma emitFaces_eq_specFan (refs : List ℤ) (h : 3 ≤ refs.length) :
    emitFaces refs = specFan refs := by
  by_cases h3 : refs.length = 3
  · obtain ⟨a, b, c, rfl⟩ := List.length_eq_three.mp h3
    rfl
  · have h4 : 3 < refs.length := by omega
    unfold emitFaces specFan
    rw [if_neg h3, if_pos h4, List.range'_eq_map_range, List.map_map]
    refine List.map_congr_left ?_
    intro j hj
    have e1 : 1 + j = j + 1 := by omega
    have e2 : 1 + j + 1 = j + 2 := by omega
    simp only [Function.comp_apply, e1, e2]

lemma processVertex_faces {st st' : ObjData} {parts : List String}
    (h : processVertex st parts = .ok st') : st'.faces = st.faces :=
  (processVertex_shape h).1

lemma processParts_faces {st st' : ObjData} {t : String} {rest : List String}
    (h : processParts st (t :: rest) = .ok st') :
    st'.faces.length = st.faces.length +
      (if t = "f" then (if 3 ≤ rest.length then rest.length - 2 else 0)
       else 0) := by
  simp only [processParts] at h
  by_cases hv : t = "v"
  · rw [if_pos hv] at h
    have hvf : t ≠ "f" := by rw [hv]; decide
    simp [processVertex_faces h, hvf]
  · rw [if_neg hv] at h
    by_cases hf : t = "f"
    · rw [if_pos hf] at h
      obtain ⟨-, -, refs, hr, hfaces⟩ := processFace_shape h
      have hlen : refs.length = rest.length := parseFaceRefs_length hr
      simp [hf, hfaces, emitFaces_length, hlen]
    · rw [if_neg hf] at h
      cases h
      simp [hf]

lemma processLine_faces {st st' : ObjData} (line : String)
    (h : processLine st line = .ok st') :
    st'.faces.length = st.faces.length +
      (match lineRefCount? line with
       | some n => if 3 ≤ n then n - 2 else 0
       | none => 0) := by
  simp only [processLine] at h
  simp only [lineRefCount?]
  by_cases he : (pyStrip line).data = []
  · rw [if_pos he] at h
    cases h
    rw [if_pos he]
    rfl
  · rw [if_neg he] at h
    rw [if_neg he]
    by_cases hh : (pyStrip line).data.head? = some '#'
    · rw [if_pos hh] at h
      cases h
      rw [if_pos hh]
      rfl
    · rw [if_neg hh] at h
      rw [if_neg hh]
      cases hsp : pySplit (pyStrip line) with
      | nil =>
        rw [hsp] at h
        have h' : Except.ok (ε := Unit) st = Except.ok st' := h
        cases h'
        rfl
      | cons t rest =>
        rw [hsp] at h
        have h' : processParts st (t :: rest) = .ok st' := h
        have hc := processParts_faces h'
        by_cases hf : t = "f"
        · rw [if_pos hf] at hc
          show st'.faces.length = st.faces.length +
            (match (if t = "f" then some rest.length else none) with
             | some n => if 3 ≤ n then n - 2 else 0
             | none => 0)
          rw [if_pos hf]
          exact hc
        · rw [if_neg hf] at hc
          show st'.faces.length = st.faces.length +
            (match (if t = "f" then some rest.length else none) with
             | some n => if 3 ≤ n then n - 2 else 0
             | none => 0)
          rw [if_neg hf]
          exact hc

lemma parseLines_faces : ∀ (lines : List String) (st d : ObjData),
    parseLines st lines = .ok d →
    d.faces.length = st.faces.length + specTriangleTotal (faceRefCounts lines) := by
  intro lines
  induction lines with
  | nil =>
    intro st d h
    cases h
    simp [faceRefCounts, specTriangleTotal]
  | cons l ls ih =>
    intro st d h
    unfold parseLines at h
    cases hpl : processLine st l with
    | error e => rw [hpl] at h; cases h
    | ok st1 =>
      rw [hpl] at h
      have hrec := ih st1 d h
      have hstep := processLine_faces l hpl
      unfold faceRefCounts at hrec ⊢
      rw [List.filterMap_cons]
      cases hlrc : lineRefCount? l with
      | none =>
        rw [hlrc] at hstep
        have hstep' : st1.faces.length = st.faces.length + 0 := hstep
        show d.faces.length =
          st.faces.length + specTriangleTotal (List.filterMap lineRefCount? ls)
        omega
      | some n =>
        rw [hlrc] at hstep
        have hstep' : st1.faces.length =
            st.faces.length + (if 3 ≤ n then n - 2 else 0) := hstep
        have hgoal : specTriangleTotal (n :: List.filterMap lineRefCount? ls) =
            (if 3 ≤ n then n - 2 else 0) +
              specTriangleTotal (List.filterMap lineRefCount? ls) := by
          simp [specTriangleTotal]
        show d.faces.length =
          st.faces.length + specTriangleTotal (n :: List.filterMap lineRefCount? ls)
        rw [hgoal]
        omega

/-- C1: a 3-reference face record yields one triangle and a k-reference
record (k > 3) yields the fan (ref[0], ref[i], ref[i+1]); the number of
parsed triangles equals the sum of n-2 over all face records with n ≥ 3
references; and the quad `f 1 2 3 4` yields exactly (0,1,2) and (0,2,3). -/
theorem c1_fan_triangulation :
    (∀ refs : List ℤ, 3 ≤ refs.length → emitFaces refs = specFan refs) ∧
    (∀ refs : List ℤ, refs.length < 3 → emitFaces refs = []) ∧
    (∀ (lines : List String) (d : ObjData),
      parse_obj_with_colors lines = .ok d →
      d.faces.length = specTriangleTotal (faceRefCounts lines)) ∧
    parse_obj_with_colors
        ["v 0 0 0", "v 0 0 1", "v 0 1 0", "v 1 0 0", "f 1 2 3 4"] =
      .ok ⟨[(0, 0, 0), (0, 0, 1), (0, 1, 0), (1, 0, 0)],
           [(1, 1, 1), (1, 1, 1), (1, 1, 1), (1, 1, 1)],
           [[0, 1, 2], [0, 2, 3]]⟩ := by
  refine ⟨emitFaces_eq_specFan, ?_, ?_, by decide⟩
  · intro refs h
    unfold emitFaces
    rw [if_neg (by omega), if_neg (by omega)]
  · intro lines d h
    simpa using parseLines_faces lines ⟨[], [], []⟩ d h

/-- Witness for `c1_fan_triangulation` at a concrete quad face. -/
theorem c1_fan_triangulation_witness :
    emitFaces [0, 1, 2, 3] = specFan [0, 1, 2, 3] ∧
    emitFaces [5] = [] ∧
    (⟨[(0, 0, 0), (0, 0, 1), (0, 1, 0), (1, 0, 0)],
      [(1, 1, 1), (1, 1, 1), (1, 1, 1), (1, 1, 1)],
      [[0, 1, 2], [0, 2, 3]]⟩ : ObjData).faces.length =
      specTriangleTotal (faceRefCounts
        ["v 0 0 0", "v 0 0 1", "v 0 1 0", "v 1 0 0", "f 1 2 3 4"]) :=
  ⟨c1_fan_triangulation.1 [0, 1, 2, 3] (by decide),
   c1_fan_triangulation.2.1 [5] (by decide),
   c1_fan_triangulation.2.2.1
     ["v 0 0 0", "v 0 0 1", "v 0 1 0", "v 1 0 0", "f 1 2 3 4"]
     ⟨[(0, 0, 0), (0, 0, 1), (0, 1, 0), (1, 0, 0)],
      [(1, 1, 1), (1, 1, 1), (1, 1, 1), (1, 1, 1)],
      [[0, 1, 2], [0, 2, 3]]⟩ (by decide)⟩

/-! ### Archive-failure handling (create_usdz lines 146-163, main 190-193) -/

/-- C2 counterexample: with a failing archive write on input `v 0 0 0`
and output `m.usdz`, the intermediate file is indeed left in place, but
no exception escapes `create_usdz` and the driver finishes with exit
status 0 — the packaging failure is downgraded to a successful run, so
the claim's propagation half is false. -/
theorem c2_counterexample :
    exitCode (mainRun ["v 0 0 0"] "m.usdz" false) = 0 ∧
    (create_usdz [((0:ℚ), (0:ℚ), (0:ℚ))] [((1:ℚ), (1:ℚ), (1:ℚ))] []
      "m.usdz" false).raised = false ∧
    (create_usdz [((0:ℚ), (0:ℚ), (0:ℚ))] [((1:ℚ), (1:ℚ), (1:ℚ))] []
      "m.usdz" false).intermediateRemoved = false := by
  decide

/-- C2 (amended): when the archive write fails, the intermediate document
is left in place (not deleted), but the `except` block swallows the
failure: no exception escapes, no archive is produced, and the driver
still completes with exit status 0. -/
theorem c2_amended_failure_swallowed (lines : List String) (d : ObjData)
    (out : String)
    (hp : parse_obj_with_colors lines = .ok d) (hd : d.vertices ≠ [])
    (hz : pyEndsWith out ".usdz" = true) :
    (create_usdz d.vertices d.colors d.faces out false).intermediateRemoved
      = false ∧
    (create_usdz d.vertices d.colors d.faces out false).raised = false ∧
    (create_usdz d.vertices d.colors d.faces out false).archive = none ∧
    mainRun lines out false =
      .completed (create_usdz d.vertices d.colors d.faces out false) ∧
    exitCode (mainRun lines out false) = 0 := by
  have hm : mainRun lines out false =
      .completed (create_usdz d.vertices d.colors d.faces out false) := by
    unfold mainRun
    rw [hp]
    simp [List.length_eq_zero, hd]
  refine ⟨?_, ?_, ?_, hm, by rw [hm]; rfl⟩ <;> simp [create_usdz, hz]

/-- Witness for `c2_amended_failure_swallowed` at a concrete run. -/
theorem c2_amended_failure_swallowed_witness :
    (create_usdz [((0:ℚ), (0:ℚ), (0:ℚ))] [((1:ℚ), (1:ℚ), (1:ℚ))] []
      "m.usdz" false).intermediateRemoved = false ∧
    (create_usdz [((0:ℚ), (0:ℚ), (0:ℚ))] [((1:ℚ), (1:ℚ), (1:ℚ))] []
      "m.usdz" false).raised = false ∧
    (create_usdz [((0:ℚ), (0:ℚ), (0:ℚ))] [((1:ℚ), (1:ℚ), (1:ℚ))] []
      "m.usdz" false).archive = none ∧
    mainRun ["v 0 0 0"] "m.usdz" false =
      .completed (create_usdz [((0:ℚ), (0:ℚ), (0:ℚ))]
        [((1:ℚ), (1:ℚ), (1:ℚ))] [] "m.usdz" false) ∧
    exitCode (mainRun ["v 0 0 0"] "m.usdz" false) = 0 :=
  c2_amended_failure_swallowed ["v 0 0 0"]
    ⟨[(0, 0, 0)], [(1, 1, 1)], []⟩ "m.usdz" (by decide) (by decide) (by decide)

/-! ### Out-of-range face indices are passed through unvalidated -/

/-- C3 counterexample: in the spec's 2-vertex scenario the face `f 1 2 3`
is parsed to triangle (0,1,2) — neither skipped (the face list is
nonempty) nor clamped (index 2 is not < 2) — and packaging copies the
out-of-range index into the document verbatim. -/
theorem c3_counterexample :
    parse_obj_with_colors ["v 0 0 0", "v 1 1 1", "f 1 2 3"] =
      .ok ⟨[(0, 0, 0), (1, 1, 1)], [(1, 1, 1), (1, 1, 1)], [[0, 1, 2]]⟩ ∧
    ([[(0:ℤ), 1, 2]] : List (List ℤ)) ≠ [] ∧
    ¬ (∀ i ∈ ([[(0:ℤ), 1, 2]] : List (List ℤ)).flatten, i < 2) ∧
    (buildDocument [(0, 0, 0), (1, 1, 1)] [(1, 1, 1), (1, 1, 1)]
      [[0, 1, 2]]).faceVertexIndices = [0, 1, 2] := by
  refine ⟨by decide, by decide, by decide, rfl⟩

/-- C3 (amended): no bounds validation happens anywhere: the face branch
of the parser appends triangles computed from the face tokens alone
(independent of the vertex list), and document construction copies the
face indices verbatim; in the 2-vertex scenario, `f 1 2 3` is kept as
triangle (0,1,2) rather than rejected or skipped. -/
theorem c3_amended_no_bounds_check :
    (∀ (st : ObjData) (refTokens : List String) (refs : List ℤ),
      parseFaceRefs refTokens = some refs →
      processFace st refTokens =
        .ok ⟨st.vertices, st.colors, st.faces ++ emitFaces refs⟩) ∧
    (∀ (v c : List (ℚ × ℚ × ℚ)) (f : List (List ℤ)),
      (buildDocument v c f).faceVertexIndices = f.flatten) ∧
    parse_obj_with_colors ["v 0 0 0", "v 1 1 1", "f 1 2 3"] =
      .ok ⟨[(0, 0, 0), (1, 1, 1)], [(1, 1, 1), (1, 1, 1)], [[0, 1, 2]]⟩ := by
  refine ⟨?_, fun _ _ _ => rfl, by decide⟩
  intro st refTokens refs h
  unfold processFace
  rw [h]

/-- Witness for `c3_amended_no_bounds_check` at the scenario's face. -/
theorem c3_amended_no_bounds_check_witness :
    processFace ⟨[(0, 0, 0), (1, 1, 1)], [(1, 1, 1), (1, 1, 1)], []⟩
      ["1", "2", "3"] =
      .ok ⟨[(0, 0, 0), (1, 1, 1)], [(1, 1, 1), (1, 1, 1)],
        [] ++ emitFaces [0, 1, 2]⟩ :=
  c3_amended_no_bounds_check.1 _ ["1", "2", "3"] [0, 1, 2] (by decide)

/-! ### Per-record numeric errors abort the whole parse -/

/-- C4 counterexample: a `v` line with non-numeric coordinate fields, or
an `f` line with a non-integer reference, makes the whole parse raise
(error) instead of skipping that record and continuing. -/
theorem c4_counterexample :
    parse_obj_with_colors ["v 0 0 0", "v a b c", "v 1 1 1"] = .error () ∧
    parse_obj_with_colors ["v 0 0 0", "f 1 x 3"] = .error () := by
  decide

/-- C4 (amended): bad numeric fields are not recovered: a `v` record with
≥ 4 fields whose first coordinate fails to parse, or an `f` record with a
non-integer reference, raises and thereby aborts the entire parse; only
`v` records with < 4 fields and unrecognized directives are skipped. -/
theorem c4_amended_bad_records_abort :
    (∀ (st : ObjData) (p1 p2 p3 : String) (rest : List String),
      pyFloat? p1 = none →
      processParts st ("v" :: p1 :: p2 :: p3 :: rest) = .error ()) ∧
    (∀ (st : ObjData) (t : String) (rest : List String),
      refOf? t = none → processParts st ("f" :: t :: rest) = .error ()) ∧
    (∀ (st : ObjData) (p1 p2 : String), processParts st ["v", p1, p2] = .ok st) ∧
    (∀ (st : ObjData) (t : String) (rest : List String),
      t ≠ "v" → t ≠ "f" → processParts st (t :: rest) = .ok st) ∧
    parse_obj_with_colors ["v 0 0 0", "v a b c", "v 1 1 1"] = .error () := by
  refine ⟨?_, ?_, ?_, ?_, by decide⟩
  · intro st p1 p2 p3 rest h
    by_cases h7 : 7 ≤ ("v" :: p1 :: p2 :: p3 :: rest).length
    · simp [processParts, processVertex, floats3?, h7, h]
    · have h4 : 4 ≤ ("v" :: p1 :: p2 :: p3 :: rest).length := by
        simp only [List.length_cons]
        omega
      simp [processParts, processVertex, floats3?, h7, h4, h]
  · intro st t rest h
    simp [processParts, processFace, parseFaceRefs, h]
  · intro st p1 p2
    simp [processParts, processVertex]
  · intro st t rest hv hf
    simp [processParts, hv, hf]

/-- Witness for `c4_amended_bad_records_abort` at concrete records. -/
theorem c4_amended_bad_records_abort_witness :
    processParts ⟨[], [], []⟩ ["v", "a", "b", "c"] = .error () ∧
    processParts ⟨[], [], []⟩ ["f", "x"] = .error () ∧
    processParts ⟨[], [], []⟩ ["v", "1", "2"] = .ok ⟨[], [], []⟩ ∧
    processParts ⟨[], [], []⟩ ["vn", "1", "2", "3"] = .ok ⟨[], [], []⟩ :=
  ⟨c4_amended_bad_records_abort.1 _ "a" "b" "c" [] (by decide),
   c4_amended_bad_records_abort.2.1 _ "x" [] (by decide),
   c4_amended_bad_records_abort.2.2.1 _ "1" "2",
   c4_amended_bad_records_abort.2.2.2.1 _ "vn" ["1", "2", "3"]
     (by decide) (by decide)⟩


/-! ### Intermediate-path derivation: str.replace replaces every occurrence -/

/-- C9 counterexample: for the output path `a.usdz.usdz` (which ends in
`.usdz` but also contains `.usdz` earlier), the code's
`replace('.usdz', '.usdc')` yields `a.usdc.usdc`, while replacing only the
final extension (the spec's derivation) yields `a.usdz.usdc`. -/
theorem c9_counterexample :
    pyEndsWith "a.usdz.usdz" ".usdz" = true ∧
    intermediatePath "a.usdz.usdz" = "a.usdc.usdc" ∧
    specIntermediate "a.usdz.usdz" = "a.usdz.usdc" ∧
    intermediatePath "a.usdz.usdz" ≠ specIntermediate "a.usdz.usdz" := by
  decide

lemma isPrefixOf_self (l : List Char) : l.isPrefixOf l = true := by
  induction l with
  | nil => rfl
  | cons c t ih => simp [List.isPrefixOf, ih]

lemma replaceAllAux_last (old new : List Char) (hold : old ≠ []) :
    ∀ (q : List Char) (fuel : ℕ), q.length + old.length ≤ fuel →
    (∀ i, i < q.length → old.isPrefixOf ((q ++ old).drop i) = false) →
    replaceAllAux old new fuel (q ++ old) = q ++ new := by
  intro q
  induction q with
  | nil =>
    intro fuel hf hno
    cases old with
    | nil => exact absurd rfl hold
    | cons o os =>
      cases fuel with
      | zero => simp at hf
      | succ f =>
        rw [List.nil_append, List.nil_append]
        have h1 : replaceAllAux (o :: os) new (f + 1) (o :: os) =
            new ++ replaceAllAux (o :: os) new f
              ((o :: os).drop (o :: os).length) := by
          simp [replaceAllAux, isPrefixOf_self]
        rw [h1, List.drop_length]
        simp [replaceAllAux]
  | cons c q' ih =>
    intro fuel hf hno
    cases fuel with
    | zero => simp at hf
    | succ f =>
      have hpre : old.isPrefixOf (c :: (q' ++ old)) = false := by
        have h0 := hno 0 (by simp)
        simpa using h0
      have hstep : replaceAllAux old new (f + 1) (c :: (q' ++ old)) =
          c :: replaceAllAux old new f (q' ++ old) := by
        simp [replaceAllAux, hpre]
      have hf' : q'.length + old.length ≤ f := by
        simp only [List.length_cons] at hf
        omega
      have hno' : ∀ i, i < q'.length →
          old.isPrefixOf ((q' ++ old).drop i) = false := by
        intro i hi
        have h1 := hno (i + 1) (by simp only [List.length_cons]; omega)
        simpa using h1
      calc replaceAllAux old new (f + 1) ((c :: q') ++ old)
          = c :: replaceAllAux old new f (q' ++ old) := by
            rw [List.cons_append]
            exact hstep
        _ = c :: (q' ++ new) := by rw [ih f hf' hno']
        _ = (c :: q') ++ new := by rw [List.cons_append]

/-- C9 (amended): the intermediate path is `output.replace('.usdz',
'.usdc')`, which rewrites every occurrence of `.usdz`; when the only
occurrence of `.usdz` in the output path is the final extension, this
coincides with the spec's same-stem final-extension replacement. -/
theorem c9_amended_extension_replacement (p : String) (q : List Char)
    (hq : p.data = q ++ (".usdz").data)
    (hno : ∀ i, i < q.length →
      (".usdz").data.isPrefixOf (p.data.drop i) = false) :
    pyEndsWith p ".usdz" = true ∧
    intermediatePath p = specIntermediate p := by
  have hend : pyEndsWith p ".usdz" = true := by
    unfold pyEndsWith
    rw [hq, decide_eq_true_eq]
    have h5 : (q ++ (".usdz").data).length - (".usdz").data.length =
        q.length := by
      simp [List.length_append]
    rw [h5, List.drop_left]
  refine ⟨hend, ?_⟩
  unfold intermediatePath
  rw [if_pos hend]
  unfold pyReplace specIntermediate
  congr 1
  rw [hq] at hno ⊢
  have hl : (q ++ (".usdz").data).length - 5 = q.length := by
    simp [List.length_append]
  rw [hl]
  have htake : (q ++ (".usdz").data).take q.length = q := List.take_left q _
  rw [htake]
  exact replaceAllAux_last (".usdz").data (".usdc").data (by decide) q
    (q ++ (".usdz").data).length (by simp [List.length_append]) hno

/-- Witness for `c9_amended_extension_replacement` at `model.usdz`. -/
theorem c9_amended_extension_replacement_witness :
    pyEndsWith "model.usdz" ".usdz" = true ∧
    intermediatePath "model.usdz" = specIntermediate "model.usdz" :=
  c9_amended_extension_replacement "model.usdz" ("model").data (by decide)
    (by decide)


end ProofSection
